import Mathlib

/-!
# Verification of the real-estate scraper engine

A shallow embedding, in Lean 4, of the scraping engine sketched in the
repository's architecture documents (the Python classes `FormatDetector`,
`DynamicParser`, `ProxyRotation`, `ErrorHandler`, `DeduplicationEngine`,
`ChangeDetector`, and the `Agency` / `AggregatedListing` models), together
with theorems settling the specification's testable properties against it.

Machine-level conventions: byte and 32-bit word arithmetic is `Nat` with
explicit reduction `% 2^32`; Python dictionaries become association lists
or structures; database queries become pure functions over an explicit
list-of-rows store; fallible operations return `Option` / `Except`.
-/

namespace Scraper

/-! ## String helpers

`pyLower` models Python `str.lower()` and `pyStrip` models `str.strip()`
on the ASCII fragment the listings' key fields live in (Lean's
`Char.toLower` lowers exactly the ASCII range; Python's whitespace set
restricted to ASCII is space, tab, CR, LF, vertical tab and form feed). -/

/-- `str.lower()` on the ASCII fragment: lower-case every character. -/
def pyLower (s : String) : String :=
  ⟨s.data.map Char.toLower⟩

/-- ASCII whitespace as Python `str.strip()` sees it. -/
def isPyWhitespace (c : Char) : Bool :=
  c = ' ' || c = '\t' || c = '\n' || c = '\r' || c = '\x0b' || c = '\x0c'

/-- `str.strip()`: drop whitespace from both ends of the string. -/
def pyStrip (s : String) : String :=
  ⟨((s.data.dropWhile isPyWhitespace).reverse.dropWhile isPyWhitespace).reverse⟩

/-- UTF-8 encoding of one character (`str.encode()` acts per code point). -/
def utf8Char (c : Char) : List Nat :=
  let n := c.toNat
  if n < 0x80 then [n]
  else if n < 0x800 then
    [0xC0 ||| (n >>> 6), 0x80 ||| (n &&& 0x3F)]
  else if n < 0x10000 then
    [0xE0 ||| (n >>> 12), 0x80 ||| ((n >>> 6) &&& 0x3F), 0x80 ||| (n &&& 0x3F)]
  else
    [0xF0 ||| (n >>> 18), 0x80 ||| ((n >>> 12) &&& 0x3F),
     0x80 ||| ((n >>> 6) &&& 0x3F), 0x80 ||| (n &&& 0x3F)]

/-- `str.encode()`: the UTF-8 bytes of a string, as a list of `Nat < 256`. -/
def strBytes (s : String) : List Nat :=
  (s.data.map utf8Char).flatten

/-! ## SHA-256 (FIPS 180-4), executable over `Nat`

`hashlib.sha256(...).hexdigest()` is embedded concretely so that equality
and inequality of digests at concrete inputs are decidable. -/

namespace Sha256

/-- Reduce to a 32-bit word. -/
def w32 (x : Nat) : Nat := x % 4294967296

/-- Right rotation of a 32-bit word. -/
def rotr (n x : Nat) : Nat := w32 ((x >>> n) ||| (x <<< (32 - n)))

/-- Bitwise complement of a 32-bit word. -/
def compl32 (x : Nat) : Nat := x ^^^ 0xFFFFFFFF

def ch (x y z : Nat) : Nat := (x &&& y) ^^^ (compl32 x &&& z)

def maj (x y z : Nat) : Nat := (x &&& y) ^^^ (x &&& z) ^^^ (y &&& z)

def bigSigma0 (x : Nat) : Nat := rotr 2 x ^^^ rotr 13 x ^^^ rotr 22 x

def bigSigma1 (x : Nat) : Nat := rotr 6 x ^^^ rotr 11 x ^^^ rotr 25 x

def smallSigma0 (x : Nat) : Nat := rotr 7 x ^^^ rotr 18 x ^^^ (x >>> 3)

def smallSigma1 (x : Nat) : Nat := rotr 17 x ^^^ rotr 19 x ^^^ (x >>> 10)

/-- The 64 round constants. -/
def K : List Nat :=
  [1116352408, 1899447441, 3049323471, 3921009573, 961987163,
   1508970993, 2453635748, 2870763221, 3624381080, 310598401,
   607225278, 1426881987, 1925078388, 2162078206, 2614888103,
   3248222580, 3835390401, 4022224774, 264347078, 604807628,
   770255983, 1249150122, 1555081692, 1996064986, 2554220882,
   2821834349, 2952996808, 3210313671, 3336571891, 3584528711,
   113926993, 338241895, 666307205, 773529912, 1294757372,
   1396182291, 1695183700, 1986661051, 2177026350, 2456956037,
   2730485921, 2820302411, 3259730800, 3345764771, 3516065817,
   3600352804, 4094571909, 275423344, 430227734, 506948616,
   659060556, 883997877, 958139571, 1322822218, 1537002063,
   1747873779, 1955562222, 2024104815, 2227730452, 2361852424,
   2428436474, 2756734187, 3204031479, 3329325298]

/-- The initial hash value. -/
def H0 : List Nat :=
  [1779033703, 3144134277, 1013904242, 2773480762,
   1359893119, 2600822924, 528734635, 1541459225]

/-- Pad a byte message: append `0x80`, zeros to 56 mod 64, then the
big-endian 64-bit bit length. -/
def padMsg (m : List Nat) : List Nat :=
  let L := m.length
  let k := (120 - (L + 1) % 64) % 64
  let bits := 8 * L
  m ++ [0x80] ++ List.replicate k 0 ++
    [(bits >>> 56) &&& 255, (bits >>> 48) &&& 255, (bits >>> 40) &&& 255,
     (bits >>> 32) &&& 255, (bits >>> 24) &&& 255, (bits >>> 16) &&& 255,
     (bits >>> 8) &&& 255, bits &&& 255]

/-- Big-endian conversion of bytes to 32-bit words. -/
def bytesToWords : List Nat → List Nat
  | b0 :: b1 :: b2 :: b3 :: rest =>
      (((b0 * 256 + b1) * 256 + b2) * 256 + b3) :: bytesToWords rest
  | _ => []

/-- Split a word list into 16-word blocks. -/
def toBlocks : List Nat → List (List Nat)
  | w0 :: w1 :: w2 :: w3 :: w4 :: w5 :: w6 :: w7 ::
    w8 :: w9 :: w10 :: w11 :: w12 :: w13 :: w14 :: w15 :: rest =>
      [w0, w1, w2, w3, w4, w5, w6, w7,
       w8, w9, w10, w11, w12, w13, w14, w15] :: toBlocks rest
  | _ => []

/-- Extend the message schedule by `n` further words. -/
def extendSchedule (w : List Nat) : Nat → List Nat
  | 0 => w
  | n + 1 =>
      let l := w.length
      let next := w32 (smallSigma1 (w.getD (l - 2) 0) + w.getD (l - 7) 0 +
        smallSigma0 (w.getD (l - 15) 0) + w.getD (l - 16) 0)
      extendSchedule (w ++ [next]) n

/-- One round of the compression function on the eight working words. -/
def round (st : List Nat) (ki wi : Nat) : List Nat :=
  match st with
  | [a, b, c, d, e, f, g, h] =>
      let t1 := w32 (h + bigSigma1 e + ch e f g + ki + wi)
      let t2 := w32 (bigSigma0 a + maj a b c)
      [w32 (t1 + t2), a, b, c, w32 (d + t1), e, f, g]
  | st => st

/-- Compress one 16-word block into the running hash. -/
def compress (h : List Nat) (block : List Nat) : List Nat :=
  let w := extendSchedule block 48
  let st := (K.zip w).foldl (fun st kw => round st kw.1 kw.2) h
  (h.zip st).map (fun p => w32 (p.1 + p.2))

/-- SHA-256 digest of a byte message, as 32 bytes. -/
def digestBytes (m : List Nat) : List Nat :=
  let final := (toBlocks (bytesToWords (padMsg m))).foldl compress H0
  (final.map (fun w =>
    [(w >>> 24) &&& 255, (w >>> 16) &&& 255, (w >>> 8) &&& 255, w &&& 255])).flatten

/-- One lower-case hexadecimal digit. -/
def hexDigit (n : Nat) : Char :=
  if n < 10 then Char.ofNat (48 + n) else Char.ofNat (87 + n)

/-- `hexdigest()`: the digest as a 64-character lower-case hex string. -/
def hexDigest (m : List Nat) : String :=
  ⟨((digestBytes m).map (fun b => [hexDigit (b / 16), hexDigit (b % 16)])).flatten⟩

end Sha256

/-- Embeds `hashlib.sha256(s.encode()).hexdigest()`. -/
def sha256Hex (s : String) : String :=
  Sha256.hexDigest (strBytes s)

/-- Substring test: does `needle` occur contiguously inside `hay`? -/
def containsStr (hay needle : String) : Bool :=
  hay.data.tails.any (fun t => needle.data.isPrefixOf t)

/-! ## FormatDetector

Embeds the `FormatDetector` class. `PATTERNS` is the static signature
table in its Python insertion order. The body of `check_indicators` is
absent from the repository, so it is modelled from the spec; the body of
`analyze_structure` is likewise absent, so `detect` abstracts over it
(its result is only passed through to `generate_selectors`, which
ignores it). -/

/-- One entry of the static signature table. -/
structure SigEntry where
  platform : String
  selectors : List String
  indicators : List String
  deriving DecidableEq, Repr

/-- Embeds `FormatDetector.PATTERNS`, in dictionary insertion order. -/
def PATTERNS : List SigEntry :=
  [⟨"wordpress", [".post", ".property", ".listing"],
      ["wp-content", "wp-includes"]⟩,
   ⟨"wix", ["[data-mesh-id]", ".wixui"],
      ["wix.com", "wixstatic.com"]⟩,
   ⟨"shopify", [".product", ".listing"],
      ["shopify.com", "cdn.shopify.com"]⟩,
   ⟨"custom", ["[data-listing]", ".property-card", ".annonce"],
      []⟩,
   ⟨"immobilier_pro", [".bien", ".annonce", ".property"],
      ["immobilier", "bien", "annonce"]⟩]

/-- Modelled from the spec: the body of `FormatDetector.check_indicators`
is not in the repository. Spec 4.3: signature match scans "for known
platform fingerprints (embedded asset paths, generator meta tags,
structural class-name conventions)" — a platform matches when one of its
indicator strings occurs in the page bytes or in the URL. An empty
indicator list matches nothing. -/
def check_indicators (html url : String) (indicators : List String) : Bool :=
  indicators.any (fun i => containsStr html i || containsStr url i)

/-- The result dictionary of `FormatDetector.detect`: platform tag,
selector list, and (in the heuristic fallback only) the analyzed DOM
structure under the `"structure"` key. -/
structure FormatInfo where
  platform : String
  selectors : List String
  struct : Option (List (String × Nat))
  deriving DecidableEq, Repr

/-- Embeds `FormatDetector.generate_selectors`: builds class, id and
data-attribute selectors for each fixed keyword. Its `structure`
argument is ignored by the source body. -/
def generate_selectors (st : List (String × Nat)) : List String :=
  let _ := st
  (["annonce", "bien", "property", "listing", "offer"].map (fun keyword =>
    ["." ++ keyword,
     "[class*='" ++ keyword ++ "']",
     "#" ++ keyword,
     "[id*='" ++ keyword ++ "']",
     "[data-" ++ keyword ++ "]"])).flatten

/-- Embeds `FormatDetector.detect`: scan `PATTERNS` in order and return
the first platform whose indicators match; otherwise analyze the DOM
structure (`analyze`, whose body is absent from the repository, is a
parameter) and return platform `"custom"` with generated selectors. -/
def detect (analyze : String → List (String × Nat)) (html url : String) :
    FormatInfo :=
  match PATTERNS.find? (fun e => check_indicators html url e.indicators) with
  | some e => ⟨e.platform, e.selectors, none⟩
  | none =>
      let st := analyze html
      ⟨"custom", generate_selectors st, some st⟩

/-! ## DynamicParser

Embeds the `DynamicParser` class. A candidate listing element is
modelled by its response to selector queries: an association list from
selector pattern to the whitespace-stripped text of the first matching
node (`select_one` + `get_text(strip=True)`); a pattern that matches no
node, or raises inside the `try`, is simply absent. -/

/-- A listing-item element, as the selector queries see it. -/
def Element : Type := List (String × String)

/-- Embeds `element.select_one(pattern)` followed by
`get_text(strip=True)`; `none` covers both no match and the caught
selector exception. -/
def selectOne (element : Element) (pattern : String) : Option String :=
  (element.find? (fun p => p.1 == pattern)).map (fun p => p.2)

/-- Embeds `DynamicParser.FIELD_PATTERNS`, in dictionary insertion order. -/
def FIELD_PATTERNS : List (String × List String) :=
  [("title", ["h1", "h2", ".title", ".name", "[data-title]"]),
   ("price", [".price", ".montant", "[data-price]", "span:contains('€')"]),
   ("surface", [".surface", ".m2", "[data-surface]"]),
   ("rooms", [".rooms", ".pieces", "[data-rooms]"]),
   ("description", [".description", ".details", "p"]),
   ("images", ["img", "[data-image]", ".gallery"]),
   ("contact", [".contact", ".agent", "[data-agent]"])]

/-- The inner pattern loop of `extract_listing`: the text of the first
pattern in the ordered list that resolves on the element. -/
def resolveField (element : Element) (patterns : List String) : Option String :=
  patterns.findSome? (selectOne element)

/-- The dictionary `extract_listing` builds: one entry per field whose
pattern list resolves, in `FIELD_PATTERNS` order. -/
def extractFields (element : Element) : List (String × String) :=
  FIELD_PATTERNS.filterMap (fun fp =>
    (resolveField element fp.2).map (fun v => (fp.1, v)))

/-- Embeds `DynamicParser.extract_listing`: `return listing if listing
else None` — the empty dictionary becomes `None`. -/
def extract_listing (element : Element) : Option (List (String × String)) :=
  let listing := extractFields element
  if listing.isEmpty then none else some listing

/-- Embeds the loop of `DynamicParser.parse` over the selected candidate
elements (the `soup.select` DOM query that produces them is outside the
embedding): extract each element and keep the non-`None` results. -/
def parse (listing_elements : List Element) : List (List (String × String)) :=
  listing_elements.filterMap extract_listing

/-! ## ProxyRotation -/

/-- Embeds the `ProxyRotation` state: the proxy list and the cursor. -/
structure ProxyRotation where
  proxies : List String
  current_index : Nat
  deriving DecidableEq, Repr

/-- Embeds `ProxyRotation.__init__`: the three hard-coded proxies,
cursor at zero. -/
def ProxyRotation.init : ProxyRotation :=
  ⟨["http://proxy1.com:8080", "http://proxy2.com:8080",
    "http://proxy3.com:8080"], 0⟩

/-- Embeds `ProxyRotation.get_proxy`: return the proxy under the cursor
and advance the cursor modulo the list length (Python indexing is total
under the cursor invariant `current_index < len(proxies)`; out of range
is given the default `""`). -/
def get_proxy (s : ProxyRotation) : String × ProxyRotation :=
  (s.proxies.getD s.current_index "",
   ⟨s.proxies, (s.current_index + 1) % s.proxies.length⟩)

/-- The rotation state after `n` calls to `get_proxy`. -/
def stateAfter (s : ProxyRotation) : Nat → ProxyRotation
  | 0 => s
  | n + 1 => (get_proxy (stateAfter s n)).2

/-- The proxy returned by call number `n + 1` (zero-based `n`). -/
def outputAt (s : ProxyRotation) (n : Nat) : String :=
  (get_proxy (stateAfter s n)).1

/-! ## ErrorHandler

Embeds `ErrorHandler.retry_with_backoff`. The awaited operation `func`
is stateful — each invocation may end differently — so it is embedded
as the sequence of its attempt outcomes, attempt `i` ending as `f i`.
The trace records the result, the number of invocations, and the
waits slept between consecutive attempts. -/

/-- Outcome of the retry helper: a returned value, a re-raised final
exception, or no attempt at all (`max_retries = 0` makes the Python
`for` body never run and the function fall through to `None`). -/
inductive RetryOutcome (ε α : Type) where
  | ok (a : α)
  | err (e : ε)
  | noAttempt
  deriving DecidableEq, Repr

/-- Execution trace of `retry_with_backoff`. -/
structure RetryTrace (ε α : Type) where
  result : RetryOutcome ε α
  calls : Nat
  waits : List Nat
  deriving DecidableEq, Repr

/-- The retry loop from attempt `i` with the given number of remaining
attempts: invoke, return on success, re-raise on the last attempt,
otherwise sleep `2 ** attempt` and continue. -/
def retryGo (f : Nat → Except ε α) : Nat → Nat → RetryTrace ε α
  | _, 0 => ⟨.noAttempt, 0, []⟩
  | i, r + 1 =>
      match f i with
      | .ok a => ⟨.ok a, 1, []⟩
      | .error e =>
          if r = 0 then ⟨.err e, 1, []⟩
          else
            let t := retryGo f (i + 1) r
            ⟨t.result, t.calls + 1, 2 ^ i :: t.waits⟩

/-- Embeds `ErrorHandler.retry_with_backoff` (the Python default for
`max_retries` is 3). -/
def retry_with_backoff (f : Nat → Except ε α) (max_retries : Nat) :
    RetryTrace ε α :=
  retryGo f 0 max_retries

/-! ## Data model and DeduplicationEngine

`ListingData` is the dictionary handed to the dedup engine: the three
key fields the hash signature interpolates (as the strings the f-string
sees) plus fields outside the signature triple. `AggRecord` is one row
of `aggregated_listings` (the columns the claims touch). -/

/-- A scraped listing dictionary. -/
structure ListingData where
  title : String
  price : String
  address : String
  description : String
  surface : String
  source_url : String
  deriving DecidableEq, Repr

/-- One row of the `aggregated_listings` table. -/
structure AggRecord where
  id : Nat
  hash : String
  source_url : String
  agency_id : Nat
  is_active : Bool
  is_duplicate : Bool
  duplicate_of : Option Nat
  deriving DecidableEq, Repr

/-- The signature string `f"{title}|{price}|{address}"` after
`.lower().strip()` — lower-casing and stripping apply to the whole
concatenation. -/
def normalizedSignature (listing : ListingData) : String :=
  pyStrip (pyLower (listing.title ++ "|" ++ listing.price ++ "|" ++
    listing.address))

/-- Embeds `DeduplicationEngine.generate_hash`. -/
def generate_hash (listing : ListingData) : String :=
  sha256Hex (normalizedSignature listing)

/-- Embeds `DeduplicationEngine.check_duplicate`: query the store for
any row with the same hash and report whether one exists. The body is a
read-only query, so the store comes back unchanged. -/
def check_duplicate (store : List AggRecord) (listing : ListingData) :
    Bool × List AggRecord :=
  let hashValue := generate_hash listing
  let existing := store.find? (fun r => r.hash == hashValue)
  (existing.isSome, store)

/-! ## ChangeDetector

Embeds `ChangeDetector.detect_changes`. The fresh scrape result is the
`current` parameter (in the source, the awaited `scrape_agency` call).
The bodies of `find_new` and `find_removed` are absent from the
repository; they are modelled from the spec. `notify_changes` is the
outbound notification collaborator (spec 4.6 and 6: it emits events);
the store is returned unchanged because the body performs no write. -/

/-- Modelled from the spec: the body of `ChangeDetector.find_new` is
not in the repository. Spec 4.6 compares "the set of hashes discovered
in the current scrape against the set of currently-active hashes
stored": new listings are the current ones whose hash no stored record
of the comparison set carries. -/
def find_new (current : List ListingData) (previous : List AggRecord) :
    List ListingData :=
  current.filter (fun l => !(previous.any (fun r => r.hash == generate_hash l)))

/-- Modelled from the spec: the body of `ChangeDetector.find_removed`
is not in the repository. Spec 4.6: removed candidates are the stored
records of the comparison set whose hash the current scrape misses. -/
def find_removed (current : List ListingData) (previous : List AggRecord) :
    List AggRecord :=
  previous.filter (fun r => !(current.any (fun l => generate_hash l == r.hash)))

/-- Embeds `ChangeDetector.detect_changes`: query the active listings
of the agency, compute the new and removed listings, notify. Returns
`((new, removed), store)`. -/
def detect_changes (store : List AggRecord) (agencyId : Nat)
    (current : List ListingData) :
    (List ListingData × List AggRecord) × List AggRecord :=
  let previous := store.filter (fun r => r.agency_id == agencyId && r.is_active)
  ((find_new current previous, find_removed current previous), store)

/-! ## Discovery Engine merge

Modelled from the spec: the repository contains only the `Agency`
declaration (the model/table), not the Discovery Engine merge logic.
Spec 4.1: candidates are merged by normalized URL (trailing slash and
`www.` stripped, scheme-insensitive canonicalization); on collision,
provenance sets are unioned and empty fields are filled
(first-non-empty-wins); unseen URLs create new rows. -/

/-- Modelled from the spec: URL normalization — drop the scheme, a
leading `www.`, and a trailing slash (written over the character list
so it evaluates by kernel reduction). -/
def normalizeUrl (u : String) : String :=
  let d := u.data
  let d1 := if ("https://").data.isPrefixOf d then d.drop 8
            else if ("http://").data.isPrefixOf d then d.drop 7 else d
  let d2 := if ("www.").data.isPrefixOf d1 then d1.drop 4 else d1
  if d2.getLast? = some '/' then ⟨d2.dropLast⟩ else ⟨d2⟩

/-- A candidate agency from one lookup provider. -/
structure AgencyCandidate where
  url : String
  name : String
  phone : String
  provenance : List String
  deriving DecidableEq, Repr

/-- One canonical Agency row of the merged store. -/
structure AgencyRec where
  norm_url : String
  name : String
  phone : String
  provenance : List String
  deriving DecidableEq, Repr

/-- Modelled from the spec: upsert one candidate into the agency store.
On a normalized-URL collision the existing row is enriched (provenance
union, first-non-empty field fill); otherwise a new row is appended. -/
def upsertCandidate (store : List AgencyRec) (c : AgencyCandidate) :
    List AgencyRec :=
  let n := normalizeUrl c.url
  if store.any (fun r => r.norm_url == n) then
    store.map (fun r =>
      if r.norm_url == n then
        { r with
          provenance := r.provenance ++
            c.provenance.filter (fun p => !(r.provenance.contains p)),
          name := if r.name = "" then c.name else r.name,
          phone := if r.phone = "" then c.phone else r.phone }
      else r)
  else store ++ [⟨n, c.name, c.phone, c.provenance⟩]

/-- Modelled from the spec: merge a batch of discovered candidates into
the agency store, one upsert per candidate. -/
def mergeCandidates (store : List AgencyRec) (cs : List AgencyCandidate) :
    List AgencyRec :=
  cs.foldl upsertCandidate store

/-! ## Concrete instances

Explicit inputs used by the counterexample and witness theorems below. -/

/-- A listing whose title carries a trailing blank before the `|`
separator of the hash signature. -/
def c1L1 : ListingData :=
  ⟨"Appartement 3 pieces ", "450000", "12 Rue X 75015", "", "",
   "https://agence-a.example/annonce/1"⟩

/-- The same listing with the trailing blank trimmed from the title:
field-normalized equal to `c1L1`. -/
def c1L2 : ListingData :=
  ⟨"Appartement 3 pieces", "450000", "12 Rue X 75015", "", "",
   "https://agence-a.example/annonce/1"⟩

/-- A listing whose whole-signature normalization agrees with `c1W2`
while fields outside the triple differ. -/
def c1W1 : ListingData :=
  ⟨"Appt", "450000", "12 Rue X", "grand balcon", "80",
   "https://agence-a.example/annonce/2"⟩

/-- Leading and trailing blanks at the outer ends of the signature and
different case: whole-signature normalization agrees with `c1W1`. -/
def c1W2 : ListingData :=
  ⟨" APPT", "450000", "12 rue x ", "autre description", "95",
   "https://agence-b.example/annonce/9"⟩

/-- The incoming listing of the dedup collision scenario, seen on a
second source URL. -/
def dupIncoming : ListingData :=
  ⟨"Appt 3p", "450000", "12 Rue X 75015", "", "",
   "https://agence-b.example/annonce/9"⟩

/-- The earlier-seen, still-active, non-duplicate stored record that
the incoming listing collides with (same hash, different source URL). -/
def dupExisting : AggRecord :=
  ⟨1, generate_hash dupIncoming, "https://agence-a.example/annonce/1", 7,
   true, false, none⟩

/-- The aggregated store at the moment of the collision. -/
def dupStore : List AggRecord := [dupExisting]

/-- The listing absent from the fresh scrapes of the change-detection
scenario. -/
def c3Listing : ListingData :=
  ⟨"Maison 5 pieces", "300000", "1 Rue Y 75015", "", "",
   "https://agence-a.example/annonce/7"⟩

/-- The active stored record of `c3Listing` for agency 1. -/
def c3Record : AggRecord :=
  ⟨1, generate_hash c3Listing, "https://agence-a.example/annonce/7", 1,
   true, false, none⟩

/-- The aggregated store before the empty scrape cycles. -/
def c3Store : List AggRecord := [c3Record]

/-- A candidate element where only the description pattern `"p"`
resolves: no title, no price. -/
def c4Element : Element := [("p", "Jolie maison de village, jardin clos")]

/-- A candidate element whose price pattern resolves to raw page text
with currency symbol and thousands separators. -/
def c5Element : Element := [(".price", "450 000 €")]

/-- A candidate element resolving a description and a price but no
title pattern. -/
def c9Element : Element :=
  [(".description", "maison de village"), (".price", "450 000 €")]

/-- A concrete attempt-outcome sequence: the first attempt fails, every
later one succeeds. -/
def c6Attempts : Nat → Except String Nat :=
  fun i => if i = 0 then Except.error "timeout" else Except.ok i

/-- A discovered candidate with scheme `https`, `www.` and a trailing
slash in its URL. -/
def discA : AgencyCandidate :=
  ⟨"https://www.agence-dupont.fr/", "Agence Dupont", "", ["google_maps"]⟩

/-- A candidate for the same site under a bare `http` URL: equal
normalized URL, different raw URL. -/
def discB : AgencyCandidate :=
  ⟨"http://agence-dupont.fr", "", "0102030405", ["pages_jaunes"]⟩

/-- The trivial structure analyzer used to instantiate `detect` at
concrete pages. -/
def anNull : String → List (String × Nat) := fun _ => []

/-! ## Shared lemmas about the extractor dictionary -/

/-- Looking up a field among extracted entries whose keys all differ
from it yields nothing. -/
theorem lookup_fields_of_not_mem (element : Element)
    (fps : List (String × List String)) (field : String)
    (h : ∀ p ∈ fps, p.1 ≠ field) :
    (fps.filterMap (fun fp =>
      (resolveField element fp.2).map (fun v => (fp.1, v)))).lookup field =
      none := by
  induction fps with
  | nil => rfl
  | cons a t ih =>
    simp only [List.filterMap_cons]
    cases hr : resolveField element a.2 with
    | none => exact ih (fun p hp => h p (List.mem_cons_of_mem a hp))
    | some v =>
      have hne : (field == a.1) = false :=
        beq_eq_false_iff_ne.mpr (fun hc => h a (List.mem_cons_self a t) hc.symm)
      simp only [Option.map_some', List.lookup, hne]
      exact ih (fun p hp => h p (List.mem_cons_of_mem a hp))

/-- With pairwise-distinct field names, looking a field up in the
extracted dictionary returns exactly what its own pattern list
resolved. -/
theorem lookup_fields_eq (element : Element)
    (fps : List (String × List String)) (field : String)
    (patterns : List String) (hnd : (fps.map Prod.fst).Nodup)
    (hmem : (field, patterns) ∈ fps) :
    (fps.filterMap (fun fp =>
      (resolveField element fp.2).map (fun v => (fp.1, v)))).lookup field =
      resolveField element patterns := by
  induction fps with
  | nil => cases hmem
  | cons a t ih =>
    have hnd0 : (a.1 :: t.map Prod.fst).Nodup := by simpa using hnd
    have hnd1 := List.nodup_cons.mp hnd0
    rcases List.mem_cons.mp hmem with heq | hmem2
    · cases heq.symm
      simp only [List.filterMap_cons]
      cases hr : resolveField element patterns with
      | some v => simp [List.lookup]
      | none =>
        refine lookup_fields_of_not_mem element t field (fun p hp hc => ?_)
        have hfm : field ∈ t.map Prod.fst := by
          rw [← hc]; exact List.mem_map_of_mem Prod.fst hp
        exact hnd1.1 hfm
    · have hfm : field ∈ t.map Prod.fst := List.mem_map_of_mem Prod.fst hmem2
      have hne : (field == a.1) = false := beq_eq_false_iff_ne.mpr (fun hc =>
        hnd1.1 (hc ▸ hfm))
      simp only [List.filterMap_cons]
      cases hr : resolveField element a.2 with
      | none => exact ih hnd1.2 hmem2
      | some v =>
        simp only [Option.map_some', List.lookup, hne]
        exact ih hnd1.2 hmem2

/-! ## C2 — behaviour of check_duplicate on a hash collision -/

/-- C2, counterexample. A listing collides with an earlier-seen, active,
non-duplicate record stored under a different source URL; the engine
reports the duplicate but creates no new record and sets no
`duplicate_of` link: the store after the call is the one-row store it
was given. -/
theorem check_duplicate_creates_no_duplicate_link :
    (dupExisting.is_active = true ∧
     dupIncoming.source_url ≠ dupExisting.source_url ∧
     generate_hash dupIncoming = dupExisting.hash) ∧
    (check_duplicate dupStore dupIncoming).1 = true ∧
    (check_duplicate dupStore dupIncoming).2 = dupStore ∧
    (check_duplicate dupStore dupIncoming).2.length = 1 ∧
    ∀ r ∈ (check_duplicate dupStore dupIncoming).2, r.duplicate_of = none := by
  decide

/-- C2, amended. `check_duplicate` is a read-only existence test: the
store comes back unchanged (nothing is created, nothing overwritten,
no `duplicate_of` is ever set), and the returned flag is true exactly
when some stored row — regardless of its source URL or active flag —
carries the same hash. -/
theorem check_duplicate_read_only (store : List AggRecord)
    (listing : ListingData) :
    (check_duplicate store listing).2 = store ∧
    ((check_duplicate store listing).1 = true ↔
      ∃ r ∈ store, r.hash = generate_hash listing) := by
  refine ⟨rfl, ?_⟩
  simp [check_duplicate, List.find?_isSome]

/-! ## C3 — behaviour of detect_changes across scrape cycles -/

/-- C3, counterexample. An active stored listing of agency 1 is absent
from three consecutive fresh scrapes (each cycle reports it among the
removed candidates), yet after the three cycles the store is untouched
and the listing is still active: no consecutive-absence threshold
deactivates it. -/
theorem detect_changes_never_deactivates :
    (detect_changes c3Store 1 []).1.2 = [c3Record] ∧
    (detect_changes (detect_changes
        (detect_changes c3Store 1 []).2 1 []).2 1 []).2 = c3Store ∧
    ∀ r ∈ (detect_changes (detect_changes
        (detect_changes c3Store 1 []).2 1 []).2 1 []).2,
      r.is_active = true := by
  decide

/-- C3, amended. `detect_changes` never writes the store — in
particular it never sets `is_active` to false, however many consecutive
cycles a listing is absent — and its removed candidates are exactly the
stored active rows of the agency whose hash no current listing
carries. -/
theorem detect_changes_read_only (store : List AggRecord) (agencyId : Nat)
    (current : List ListingData) :
    (detect_changes store agencyId current).2 = store ∧
    ∀ r, r ∈ (detect_changes store agencyId current).1.2 ↔
      r ∈ store ∧ r.agency_id = agencyId ∧ r.is_active = true ∧
        ∀ l ∈ current, generate_hash l ≠ r.hash := by
  refine ⟨rfl, fun r => ?_⟩
  simp only [detect_changes, find_removed, List.mem_filter,
    Bool.not_eq_true', List.any_eq_false, Bool.and_eq_true, beq_iff_eq]
  tauto

/-! ## C4 — which candidates extraction discards -/

/-- C4, counterexample. A candidate with no resolvable title and no
resolvable price — only its description pattern resolves — is kept by
`extract_listing` with its partial data, not discarded. -/
theorem extract_listing_keeps_titleless_priceless :
    extract_listing c4Element =
      some [("description", "Jolie maison de village, jardin clos")] ∧
    ("title", ["h1", "h2", ".title", ".name", "[data-title]"]) ∈
      FIELD_PATTERNS ∧
    resolveField c4Element ["h1", "h2", ".title", ".name", "[data-title]"] =
      none ∧
    ("price", [".price", ".montant", "[data-price]", "span:contains('€')"]) ∈
      FIELD_PATTERNS ∧
    resolveField c4Element
      [".price", ".montant", "[data-price]", "span:contains('€')"] = none := by
  decide

/-- C4, amended. `extract_listing` discards a candidate exactly when no
target field at all resolves; any candidate with at least one resolved
field is kept, and the parse loop keeps exactly the kept candidates. -/
theorem extract_listing_discard_iff (element : Element) :
    (extract_listing element = none ↔
      ∀ fp ∈ FIELD_PATTERNS, resolveField element fp.2 = none) ∧
    ∀ (elements : List Element) (L : List (String × String)),
      L ∈ parse elements ↔ ∃ e ∈ elements, extract_listing e = some L := by
  constructor
  · have h1 : extract_listing element = none ↔ extractFields element = [] := by
      by_cases h : (extractFields element).isEmpty
      · simp [extract_listing, h, List.isEmpty_iff.mp h]
      · simp [extract_listing, h]
        exact fun hc => h (hc ▸ rfl)
    rw [h1]
    unfold extractFields
    rw [List.filterMap_eq_nil_iff]
    simp
  · intro elements L
    simp [parse, List.mem_filterMap]

/-! ## C5 — what extraction stores as the price -/

/-- C5, counterexample. The price pattern resolves to the raw page text
`"450 000 €"` — currency symbol and separators intact — and exactly
that text is stored, not a parsed integer. -/
theorem extract_price_raw_text :
    extract_listing c5Element = some [("price", "450 000 €")] ∧
    (extractFields c5Element).lookup "price" = some "450 000 €" := by
  decide

/-- C5, amended. The extracted price is the text of the first resolving
price pattern verbatim (whitespace-stripped by `get_text`): no currency
or separator stripping and no integer parsing occur. -/
theorem extract_price_stored_verbatim (element : Element) :
    (extractFields element).lookup "price" =
      resolveField element
        [".price", ".montant", "[data-price]", "span:contains('€')"] :=
  lookup_fields_eq element FIELD_PATTERNS "price" _ (by decide) (by decide)

/-! ## C9 — unresolved fields are left empty -/

/-- C9. A target field none of whose patterns resolves has no entry in
the extracted dictionary: it is left empty, never defaulted. -/
theorem unresolved_field_left_empty (element : Element) (field : String)
    (patterns : List String) (hmem : (field, patterns) ∈ FIELD_PATTERNS)
    (hnone : resolveField element patterns = none) :
    (extractFields element).lookup field = none ∧
    ∀ L, extract_listing element = some L → L.lookup field = none := by
  have key : (extractFields element).lookup field = none :=
    (lookup_fields_eq element FIELD_PATTERNS field patterns
      (by decide) hmem).trans hnone
  refine ⟨key, fun L hL => ?_⟩
  by_cases h : (extractFields element).isEmpty
  · simp [extract_listing, h] at hL
  · simp only [extract_listing, h, if_neg, Bool.false_eq_true,
      not_false_iff, if_false, Option.some.injEq] at hL
    exact hL ▸ key

/-- C9, witness: on the concrete element resolving only a description
and a price, the title field is absent from the extraction. -/
theorem unresolved_field_left_empty_witness :
    (extractFields c9Element).lookup "title" = none ∧
    ∀ L, extract_listing c9Element = some L → L.lookup "title" = none :=
  unresolved_field_left_empty c9Element "title"
    ["h1", "h2", ".title", ".name", "[data-title]"] (by decide) (by decide)

/-! ## C6 — the retry helper -/

/-- The four possible traces of the three-attempt retry loop, by case
analysis on the first three attempt outcomes. -/
theorem retry3_cases {ε α : Type} (f : Nat → Except ε α) :
    retry_with_backoff f 3 =
      match f 0 with
      | .ok a => ⟨.ok a, 1, []⟩
      | .error _ =>
        match f 1 with
        | .ok a => ⟨.ok a, 2, [1]⟩
        | .error _ =>
          match f 2 with
          | .ok a => ⟨.ok a, 3, [1, 2]⟩
          | .error e => ⟨.err e, 3, [1, 2]⟩ := by
  cases h0 : f 0 <;> cases h1 : f 1 <;> cases h2 : f 2 <;>
    simp [retry_with_backoff, retryGo, h0, h1, h2]

/-- C6. With the default `max_retries = 3`: the operation runs at most
3 times; the waits between consecutive attempts are `2 ** attempt`
(1 then 2 — doubling); a first success at attempt `k` is returned with
no further invocation; and the helper ends in an exception exactly when
all three attempts fail, re-raising the third attempt's exception. -/
theorem retry_with_backoff_spec {ε α : Type} (f : Nat → Except ε α) :
    (retry_with_backoff f 3).calls ≤ 3 ∧
    (retry_with_backoff f 3).waits =
      (List.range ((retry_with_backoff f 3).calls - 1)).map (fun i => 2 ^ i) ∧
    (∀ k, k < 3 → (∀ j, j < k → ∃ e, f j = Except.error e) →
      ∀ a, f k = Except.ok a →
        (retry_with_backoff f 3).result = RetryOutcome.ok a ∧
        (retry_with_backoff f 3).calls = k + 1) ∧
    (∀ e, (retry_with_backoff f 3).result = RetryOutcome.err e ↔
      (∃ e0, f 0 = Except.error e0) ∧ (∃ e1, f 1 = Except.error e1) ∧
        f 2 = Except.error e) := by
  cases h0 : f 0 with
  | ok a0 =>
    have ht : retry_with_backoff f 3 = ⟨.ok a0, 1, []⟩ := by
      simp [retry3_cases f, h0]
    rw [ht]
    refine ⟨(by decide : (1 : Nat) ≤ 3), rfl,
      fun k hk hprev a hka => ?_, fun e => by simp [h0]⟩
    interval_cases k
    · rw [h0] at hka; cases hka; exact ⟨rfl, rfl⟩
    · obtain ⟨e, he⟩ := hprev 0 (by omega); rw [h0] at he; cases he
    · obtain ⟨e, he⟩ := hprev 0 (by omega); rw [h0] at he; cases he
  | error e0 =>
    cases h1 : f 1 with
    | ok a1 =>
      have ht : retry_with_backoff f 3 = ⟨.ok a1, 2, [1]⟩ := by
        simp [retry3_cases f, h0, h1]
      rw [ht]
      refine ⟨(by decide : (2 : Nat) ≤ 3), rfl, fun k hk hprev a hka => ?_,
        fun e => by simp [h1]⟩
      interval_cases k
      · rw [h0] at hka; cases hka
      · rw [h1] at hka; cases hka; exact ⟨rfl, rfl⟩
      · obtain ⟨e, he⟩ := hprev 1 (by omega); rw [h1] at he; cases he
    | error e1 =>
      cases h2 : f 2 with
      | ok a2 =>
        have ht : retry_with_backoff f 3 = ⟨.ok a2, 3, [1, 2]⟩ := by
          simp [retry3_cases f, h0, h1, h2]
        rw [ht]
        refine ⟨(by decide : (3 : Nat) ≤ 3), rfl, fun k hk hprev a hka => ?_,
          fun e => by simp [h2]⟩
        interval_cases k
        · rw [h0] at hka; cases hka
        · rw [h1] at hka; cases hka
        · rw [h2] at hka; cases hka; exact ⟨rfl, rfl⟩
      | error e2 =>
        have ht : retry_with_backoff f 3 = ⟨.err e2, 3, [1, 2]⟩ := by
          simp [retry3_cases f, h0, h1, h2]
        rw [ht]
        refine ⟨(by decide : (3 : Nat) ≤ 3), rfl, fun k hk hprev a hka => ?_,
          fun e => by simp [h0, h1, h2, eq_comm]⟩
        interval_cases k
        · rw [h0] at hka; cases hka
        · rw [h1] at hka; cases hka
        · rw [h2] at hka; cases hka

/-- C6, witness: under the concrete outcome sequence that fails once
and then succeeds, the helper returns the second attempt's value after
exactly two invocations. -/
theorem retry_with_backoff_witness :
    (retry_with_backoff c6Attempts 3).result = RetryOutcome.ok 1 ∧
    (retry_with_backoff c6Attempts 3).calls = 2 :=
  (retry_with_backoff_spec c6Attempts).2.2.1 1 (by omega)
    (fun j hj => ⟨"timeout", by interval_cases j; rfl⟩) 1 rfl

/-! ## C7 — one Agency per normalized URL (spec-modelled merge) -/

/-- Upserting a candidate leaves the normalized-URL column unchanged on
a collision and appends the new normalized URL otherwise. -/
theorem norms_upsert (s : List AgencyRec) (c : AgencyCandidate) :
    (upsertCandidate s c).map AgencyRec.norm_url =
      if s.any (fun r => r.norm_url == normalizeUrl c.url) then
        s.map AgencyRec.norm_url
      else s.map AgencyRec.norm_url ++ [normalizeUrl c.url] := by
  by_cases h : s.any (fun r => r.norm_url == normalizeUrl c.url)
  · simp only [upsertCandidate, h, if_true, List.map_map]
    refine List.map_congr_left (fun r _ => ?_)
    by_cases hr : (r.norm_url == normalizeUrl c.url) = true <;>
      simp [Function.comp, hr]
  · simp [upsertCandidate, h]

/-- Upserting preserves distinctness of the normalized URLs. -/
theorem nodup_norms_upsert (s : List AgencyRec) (c : AgencyCandidate)
    (h : (s.map AgencyRec.norm_url).Nodup) :
    ((upsertCandidate s c).map AgencyRec.norm_url).Nodup := by
  rw [norms_upsert]
  by_cases ha : s.any (fun r => r.norm_url == normalizeUrl c.url)
  · rw [if_pos ha]; exact h
  · have hn : normalizeUrl c.url ∉ s.map AgencyRec.norm_url := by
      intro hmem
      rcases List.mem_map.mp hmem with ⟨r, hr, hrn⟩
      exact ha (List.any_eq_true.mpr ⟨r, hr, by simp [hrn]⟩)
    rw [if_neg ha]
    simp [List.nodup_append, h, hn]

/-- The upserted candidate's normalized URL is present afterwards. -/
theorem mem_norms_upsert (s : List AgencyRec) (c : AgencyCandidate) :
    normalizeUrl c.url ∈ (upsertCandidate s c).map AgencyRec.norm_url := by
  rw [norms_upsert]
  by_cases ha : s.any (fun r => r.norm_url == normalizeUrl c.url)
  · rcases List.any_eq_true.mp ha with ⟨r, hr, hbeq⟩
    have hrn : r.norm_url = normalizeUrl c.url := by simpa using hbeq
    simp only [ha, if_true]
    exact hrn ▸ List.mem_map_of_mem AgencyRec.norm_url hr
  · simp [ha]

/-- Upserting never removes a normalized URL. -/
theorem norms_upsert_mono (s : List AgencyRec) (c : AgencyCandidate)
    (x : String) (hx : x ∈ s.map AgencyRec.norm_url) :
    x ∈ (upsertCandidate s c).map AgencyRec.norm_url := by
  rw [norms_upsert]; split <;> simp [hx]

/-- Merging a batch never removes a normalized URL. -/
theorem norms_merge_mono (cs : List AgencyCandidate) (s : List AgencyRec)
    (x : String) (hx : x ∈ s.map AgencyRec.norm_url) :
    x ∈ (mergeCandidates s cs).map AgencyRec.norm_url := by
  induction cs generalizing s with
  | nil => exact hx
  | cons c t ih => exact ih _ (norms_upsert_mono s c x hx)

/-- C7. From a store with pairwise-distinct normalized URLs, merging
any batch of discovered candidates keeps the normalized URLs pairwise
distinct, and every candidate of the batch ends represented by exactly
one Agency row for its normalized URL: candidates with equal normalized
URLs are merged into one record. -/
theorem discovery_merge_unique (store : List AgencyRec)
    (cs : List AgencyCandidate)
    (h : (store.map AgencyRec.norm_url).Nodup) :
    ((mergeCandidates store cs).map AgencyRec.norm_url).Nodup ∧
    ∀ c ∈ cs, ((mergeCandidates store cs).map AgencyRec.norm_url).count
      (normalizeUrl c.url) = 1 := by
  have hnd : ∀ (cs2 : List AgencyCandidate) (s : List AgencyRec),
      (s.map AgencyRec.norm_url).Nodup →
      ((mergeCandidates s cs2).map AgencyRec.norm_url).Nodup := by
    intro cs2
    induction cs2 with
    | nil => exact fun s hs => hs
    | cons c t ih => exact fun s hs => ih _ (nodup_norms_upsert s c hs)
  have hmem : ∀ c ∈ cs, normalizeUrl c.url ∈
      (mergeCandidates store cs).map AgencyRec.norm_url := by
    clear h
    induction cs generalizing store with
    | nil => intro c hc; cases hc
    | cons c0 t ih =>
      intro c hc
      rcases List.mem_cons.mp hc with rfl | hct
      · exact norms_merge_mono t _ _ (mem_norms_upsert store c)
      · exact ih (upsertCandidate store c0) c hct
  exact ⟨hnd cs store h, fun c hc =>
    List.count_eq_one_of_mem (hnd cs store h) (hmem c hc)⟩

/-- C7, witness: two candidates for the same site — `https` with `www.`
and trailing slash versus bare `http` — normalize to the same URL and
merge into exactly one Agency row. -/
theorem discovery_merge_unique_witness :
    normalizeUrl discA.url = normalizeUrl discB.url ∧
    ((mergeCandidates [] [discA, discB]).map AgencyRec.norm_url).count
      (normalizeUrl discA.url) = 1 :=
  ⟨by decide, (discovery_merge_unique [] [discA, discB] (by decide)).2
    discA (by decide)⟩

/-! ## C8 — two-tier format detection, first match wins -/

/-- Generic first-match lemma: `find?` on a list whose prefix all fails
the predicate returns the first succeeding element. -/
theorem find?_append_cons {α : Type} {p : α → Bool} (pre : List α) (e : α)
    (post : List α) (hpre : ∀ x ∈ pre, p x = false) (he : p e = true) :
    (pre ++ e :: post).find? p = some e := by
  induction pre with
  | nil => exact List.find?_cons_of_pos post he
  | cons b t ih =>
    rw [List.cons_append,
      List.find?_cons_of_neg _ (by simp [hpre b (List.mem_cons_self b t)])]
    exact ih (fun x hx => hpre x (List.mem_cons_of_mem b hx))

/-- C8. Detection is two-tier with first-match-wins: splitting the
static signature table anywhere, if every earlier entry fails the
indicator check and the split entry passes it, `detect` returns that
entry's platform with its static selectors; and when no entry of the
table matches, `detect` falls back to the DOM-structure heuristic and
returns platform `"custom"` with dynamically generated selectors. -/
theorem detect_spec (an : String → List (String × Nat)) (html url : String) :
    (∀ pre e post, PATTERNS = pre ++ e :: post →
      (∀ e2 ∈ pre, check_indicators html url e2.indicators = false) →
      check_indicators html url e.indicators = true →
      detect an html url = ⟨e.platform, e.selectors, none⟩) ∧
    ((∀ e ∈ PATTERNS, check_indicators html url e.indicators = false) →
      detect an html url =
        ⟨"custom", generate_selectors (an html), some (an html)⟩) := by
  constructor
  · intro pre e post hP hpre he
    simp only [detect, hP, find?_append_cons pre e post hpre he]
  · intro hall
    have hnone : PATTERNS.find?
        (fun e => check_indicators html url e.indicators) = none :=
      List.find?_eq_none.mpr (fun x hx => by simp [hall x hx])
    simp only [detect, hnone]

/-- C8, witness: a page embedding a `wp-content` asset path is detected
as `wordpress` with its static selectors; a page matching no signature
falls back to `"custom"` with the generated selectors. -/
theorem detect_spec_witness :
    detect anNull "<html><head><link href=/wp-content/a.css></head></html>"
        "https://agence.example" =
      ⟨"wordpress", [".post", ".property", ".listing"], none⟩ ∧
    detect anNull "<html><body>aucune plateforme connue</body></html>"
        "https://agence.example" =
      ⟨"custom", generate_selectors [], some []⟩ := by
  constructor
  · exact (detect_spec anNull _ _).1 []
      ⟨"wordpress", [".post", ".property", ".listing"],
        ["wp-content", "wp-includes"]⟩
      (PATTERNS.drop 1) rfl (by simp) (by decide)
  · exact (detect_spec anNull _ _).2 (by decide)

/-! ## C10 — proxy round-robin -/

/-- After `n` calls from a fresh rotation, the proxy list is untouched
and the cursor sits at `n % 3`. -/
theorem stateAfter_init (n : Nat) :
    stateAfter ProxyRotation.init n = ⟨ProxyRotation.init.proxies, n % 3⟩ := by
  induction n with
  | zero => rfl
  | succ n ih =>
    show (get_proxy (stateAfter ProxyRotation.init n)).2 = _
    rw [ih]
    simp only [get_proxy, ProxyRotation.init, ProxyRotation.mk.injEq,
      List.length_cons, List.length_nil]
    exact ⟨trivial, by omega⟩

/-- C10. `get_proxy` is a round-robin over the fixed three-proxy list:
call `n + 1` from a fresh instance returns the proxy at index `n % 3`;
the cursor always stays inside `[0, len)`; and from any reachable
cursor, three consecutive calls return each proxy exactly once and
restore the rotation state. -/
theorem proxy_round_robin_spec :
    (∀ n, (stateAfter ProxyRotation.init n).proxies =
        ProxyRotation.init.proxies ∧
      (stateAfter ProxyRotation.init n).current_index = n % 3 ∧
      (stateAfter ProxyRotation.init n).current_index <
        (stateAfter ProxyRotation.init n).proxies.length) ∧
    (∀ n, outputAt ProxyRotation.init n =
      ProxyRotation.init.proxies.getD (n % 3) "") ∧
    ∀ i, i < 3 →
      [outputAt ⟨ProxyRotation.init.proxies, i⟩ 0,
       outputAt ⟨ProxyRotation.init.proxies, i⟩ 1,
       outputAt ⟨ProxyRotation.init.proxies, i⟩ 2].Perm
        ProxyRotation.init.proxies ∧
      stateAfter ⟨ProxyRotation.init.proxies, i⟩ 3 =
        ⟨ProxyRotation.init.proxies, i⟩ := by
  refine ⟨fun n => ?_, fun n => ?_, fun i hi => ?_⟩
  · rw [stateAfter_init]
    exact ⟨rfl, rfl, by simp [ProxyRotation.init]; omega⟩
  · unfold outputAt
    rw [stateAfter_init]
    rfl
  · interval_cases i <;> exact ⟨by decide, by decide⟩

/-- C10, witness: from cursor 1, the three consecutive outputs are a
permutation of the proxy list and the state returns to cursor 1. -/
theorem proxy_round_robin_witness :
    [outputAt ⟨ProxyRotation.init.proxies, 1⟩ 0,
     outputAt ⟨ProxyRotation.init.proxies, 1⟩ 1,
     outputAt ⟨ProxyRotation.init.proxies, 1⟩ 2].Perm
      ProxyRotation.init.proxies ∧
    stateAfter ⟨ProxyRotation.init.proxies, 1⟩ 3 =
      ⟨ProxyRotation.init.proxies, 1⟩ :=
  proxy_round_robin_spec.2.2 1 (by omega)

/-! ## C1 — the dedup identity hash -/

/-- C1, counterexample. Two listings whose title, price and address are
each identical after per-field lower-casing and trimming — the titles
differ only by a trailing blank — receive different hashes: the code
lower-cases and strips the concatenated signature as a whole, so the
blank survives at the interior field boundary. -/
theorem generate_hash_field_normalization_fails :
    pyStrip (pyLower c1L1.title) = pyStrip (pyLower c1L2.title) ∧
    pyStrip (pyLower c1L1.price) = pyStrip (pyLower c1L2.price) ∧
    pyStrip (pyLower c1L1.address) = pyStrip (pyLower c1L2.address) ∧
    generate_hash c1L1 ≠ generate_hash c1L2 := by
  decide

/-- C1, amended. The hash is deterministic over the normalized
concatenated signature `title|price|address` (lower-cased and stripped
as one string): equal normalized signatures give equal hashes, and the
hash depends on no field outside the (title, price, address) triple. -/
theorem generate_hash_signature_spec :
    (∀ L1 L2 : ListingData, normalizedSignature L1 = normalizedSignature L2 →
      generate_hash L1 = generate_hash L2) ∧
    (∀ L1 L2 : ListingData, L1.title = L2.title → L1.price = L2.price →
      L1.address = L2.address → generate_hash L1 = generate_hash L2) := by
  constructor
  · intro L1 L2 h
    unfold generate_hash
    rw [h]
  · intro L1 L2 h1 h2 h3
    unfold generate_hash normalizedSignature
    rw [h1, h2, h3]

/-- C1, witness: two listings with equal normalized signatures but
different descriptions, surfaces and source URLs hash identically. -/
theorem generate_hash_signature_witness :
    normalizedSignature c1W1 = normalizedSignature c1W2 ∧
    c1W1.description ≠ c1W2.description ∧
    generate_hash c1W1 = generate_hash c1W2 :=
  ⟨by decide, by decide, generate_hash_signature_spec.1 c1W1 c1W2 (by decide)⟩

end Scraper
